import Mathlib

/-!
Verification development for the normalization layers of a deep-learning
layer library (batch normalization, layer normalization, adapt-based
feature normalization).

The Python source is shallowly embedded: tensor arithmetic is modelled
elementwise over the rationals (exact arithmetic in place of floating
point), tensors of a fixed rank are modelled as functions out of `Fin`
types and tensors of arbitrary rank as functions on multi-indices, and
engine-supplied irrational primitives (reciprocal square root) are
passed as explicit function parameters.  Fallible construction and
build steps are modelled with `Except`.
-/

namespace KerasNorm

/-- Embedding of `BatchNormalizationBase._assign_moving_average`.
`old` is the current value of the moving-statistic variable, `value` the
new batch statistic, `inputsSize` the (optionally known) batch size.
The update delta `(variable - value) * (1 - momentum)` is forced to zero
when the batch size is known and not positive; the function returns the
value assigned to the variable (`variable - update_delta`). -/
def assignMovingAverage (old value momentum : ℚ) (inputsSize : Option ℤ) : ℚ :=
  let decay : ℚ := 1 - momentum
  let updateDelta : ℚ := (old - value) * decay
  let updateDelta : ℚ :=
    match inputsSize with
    | none => updateDelta
    | some n => if 0 < n then updateDelta else 0
  old - updateDelta

/-- Clipping bounds configured for batch renormalization
(the `renorm_clipping` dictionary: keys rmin, rmax, dmax, each optional). -/
structure RenormClipping where
  rmin : Option ℝ
  rmax : Option ℝ
  dmax : Option ℝ

/-- Embedding of `BatchNormalizationBase._renorm_correction_and_moments`
(elementwise over the reals).  `renormMeanVar` and `renormStddevVar` are the
current values of the `renorm_mean` and `renorm_stddev` variables, `mean` and
`variance` the batch moments.  Returns `(r, d, out_mean, out_variance)`;
the moving-average side effects on the renorm variables go through
`_assign_moving_average` and are covered by the moving-average theorems. -/
noncomputable def renormCorrectionAndMoments (clip : RenormClipping)
    (renormMeanVar renormStddevVar mean variance epsilon : ℝ)
    (training : Bool) : ℝ × ℝ × ℝ × ℝ :=
  let stddev := Real.sqrt (variance + epsilon)
  let renormStddev := max renormStddevVar (Real.sqrt epsilon)
  let r := stddev / renormStddev
  let d := (mean - renormMeanVar) / renormStddev
  let r := match clip.rmin with | some rmin => max r rmin | none => r
  let r := match clip.rmax with | some rmax => min r rmax | none => r
  let d := match clip.dmax with | some dmax => min (max d (-dmax)) dmax | none => d
  let r := if training then r else 1
  let d := if training then d else 0
  (r, d, mean, variance)

/-- Clip from below by an optional configured bound (claim wording). -/
noncomputable def clipLower (lo : Option ℝ) (v : ℝ) : ℝ :=
  match lo with
  | some a => max v a
  | none => v

/-- Clip from above by an optional configured bound (claim wording). -/
noncomputable def clipUpper (hi : Option ℝ) (v : ℝ) : ℝ :=
  match hi with
  | some b => min v b
  | none => v

/-- Symmetric clip to `[-m, m]` by an optional configured bound (claim wording). -/
noncomputable def clipSym (bound : Option ℝ) (v : ℝ) : ℝ :=
  match bound with
  | some m => min (max v (-m)) m
  | none => v

/-- Compute dtypes relevant to the fused-path whitelist check. -/
inductive DType
  | float16
  | bfloat16
  | float32
  | float64
deriving DecidableEq

/-- Configuration fields of `BatchNormalizationBase` consulted by the
fused-path selector.  `axis` is stored in list form (the constructor wraps a
single integer into a one-element list before `build` uses it; the whitelist
check in `_raise_if_fused_cannot_be_used` does the same wrapping).
`adjustment` records whether an adjustment function was supplied. -/
structure BNConfig where
  axis : List ℤ
  renorm : Bool
  virtualBatchSize : Option ℤ
  adjustment : Bool
  computeDtype : Option DType
deriving DecidableEq

/-- Axis whitelist of `_raise_if_fused_cannot_be_used`: the single axis must
be one of -4, -3, -1, 1, 3, 4 (rank is checked later, at build). -/
def fusedAxisWhitelist : List ℤ := [-4, -3, -1, 1, 3, 4]

/-- Compute dtypes accepted by `_raise_if_fused_cannot_be_used`
(float16, bfloat16, float32, or no dtype configured yet). -/
def fusedDtypeAllowed (d : Option DType) : Bool :=
  match d with
  | none => true
  | some DType.float16 => true
  | some DType.bfloat16 => true
  | some DType.float32 => true
  | some DType.float64 => false

/-- Embedding of `BatchNormalizationBase._raise_if_fused_cannot_be_used`. -/
def raiseIfFusedCannotBeUsed (cfg : BNConfig) : Except String Unit :=
  if cfg.renorm then
    Except.error "Passing both fused=True and renorm=True is not supported"
  else if 1 < cfg.axis.length ∨ cfg.axis.headI ∉ fusedAxisWhitelist then
    Except.error "fused=True is only supported when axis is 1 or 3 for input rank 4 or 1 or 4 for input rank 5"
  else if cfg.virtualBatchSize ≠ none then
    Except.error "fused=True is not supported when virtual_batch_size is specified"
  else if cfg.adjustment then
    Except.error "fused=True is not supported when adjustment is specified"
  else if ¬ fusedDtypeAllowed cfg.computeDtype then
    Except.error "fused=True is only supported when the compute dtype is float16, bfloat16 or float32"
  else
    Except.ok ()

/-- Truth value of an `Except` being a success. -/
def exceptOk {ε α : Type} (e : Except ε α) : Bool :=
  match e with
  | Except.ok _ => true
  | Except.error _ => false

/-- Embedding of `BatchNormalizationBase._fused_can_be_used`. -/
def fusedCanBeUsed (cfg : BNConfig) : Bool :=
  exceptOk (raiseIfFusedCannotBeUsed cfg)

/-- Embedding of the fused-selection logic of the constructor (`__init__`):
with V2 behavior, an explicit `fused=True` request runs the feasibility
checks (propagating their error); `fused=None` is demoted to `False` when
the configuration is infeasible, else left `None` for `build` to resolve.
With V1 behavior `fused=None` becomes `True`.  Returns the `fused` field. -/
def initFused (useV2 : Bool) (cfg : BNConfig) (fused : Option Bool) :
    Except String (Option Bool) :=
  if useV2 then
    match fused with
    | some true =>
      match raiseIfFusedCannotBeUsed cfg with
      | Except.error e => Except.error e
      | Except.ok _ => Except.ok (some true)
    | some false => Except.ok (some false)
    | none => Except.ok (if fusedCanBeUsed cfg then none else some false)
  else
    match fused with
    | none => Except.ok (some true)
    | f => Except.ok f

/-- Result of the configuration part of `build`: the resolved `fused` flag,
the resolved (and, under virtual batching, shifted) axis list, the fused
data format, and the parameter shape. -/
structure BuildResult where
  fused : Bool
  axis : List ℤ
  dataFormat : Option String
  paramShape : List ℕ
deriving DecidableEq

/-- Embedding of the virtual-batch validation block of `build`. -/
def checkVirtualBatch (cfg : BNConfig) (axis1 : List ℤ) : Except String Unit :=
  match cfg.virtualBatchSize with
  | none => Except.ok ()
  | some v =>
    if v ≤ 0 then
      Except.error "virtual_batch_size must be a positive integer that divides the true batch size"
    else if (0 : ℤ) ∈ axis1 then
      Except.error "when using virtual_batch_size, axis cannot include 0"
    else if cfg.adjustment then
      Except.error "when using virtual_batch_size, adjustment cannot be specified"
    else
      Except.ok ()

/-- Embedding of the `self.fused in (None, True)` resolution block of `build`
(the branch on `_USE_V2_BEHAVIOR`). -/
def resolveFusedAtBuild (useV2 : Bool) (cfg : BNConfig) (fused0 : Option Bool)
    (ndims : ℕ) : Except String Bool :=
  match fused0 with
  | some false => Except.ok false
  | some true =>
    if useV2 then
      if ndims = 4 ∨ ndims = 5 then Except.ok true
      else Except.error "fused=True only supports 4D or 5D input tensors"
    else Except.ok (decide (ndims = 4 ∨ ndims = 5) && fusedCanBeUsed cfg)
  | none =>
    if useV2 then Except.ok (decide (ndims = 4 ∨ ndims = 5))
    else Except.error "assertion failed: fused is None"

/-- Embedding of the data-format chain of `build`: for a still-fused layer,
picks the data format, silently disables fused mode for a rank-5 input with
an unsupported axis, and raises for a rank-4 input with an unsupported axis.
Returns the final fused flag and the data format. -/
def fusedDataFormat (axis1 : List ℤ) (ndims : ℕ) :
    Except String (Bool × Option String) :=
  if axis1 = [1] ∧ ndims = 4 then Except.ok (true, some "NCHW")
  else if axis1 = [1] ∧ ndims = 5 then Except.ok (true, some "NCDHW")
  else if axis1 = [3] ∧ ndims = 4 then Except.ok (true, some "NHWC")
  else if axis1 = [4] ∧ ndims = 5 then Except.ok (true, some "NDHWC")
  else if ndims = 5 then Except.ok (false, none)
  else if ndims = 4 then
    Except.error "Unsupported axis: fused=True requires axis 1 or 3 for 4D input"
  else
    Except.error "Unsupported axis: fused=True requires axis 1 or 4 for 5D input"

/-- Embedding of the configuration part of `BatchNormalizationBase.build`
(axis resolution and validation, virtual-batch checks, fused resolution,
data-format chain, undefined-dimension check, parameter shape and the
virtual-batch axis shift).  Weight creation is a side effect on the external
variable registry and is not modelled.  `shape` holds the (optionally
undefined) input dimensions. -/
def build (useV2 : Bool) (cfg : BNConfig) (fused0 : Option Bool)
    (shape : List (Option ℕ)) : Except String BuildResult := do
  let ndims := shape.length
  if ndims = 0 then throw "Input has undefined rank."
  let axis1 := cfg.axis.map fun x => if x < 0 then (ndims : ℤ) + x else x
  if ¬ (∀ x ∈ axis1, 0 ≤ x ∧ x < (ndims : ℤ)) then throw "Invalid axis"
  if ¬ axis1.Nodup then throw "Duplicate axis"
  checkVirtualBatch cfg axis1
  let fused1 ← resolveFusedAtBuild useV2 cfg fused0 ndims
  let fd ← if fused1 then fusedDataFormat axis1 ndims else pure (false, none)
  if ¬ (∀ x ∈ axis1, shape.getD x.toNat none ≠ none) then
    throw "Input has undefined axis dimension"
  let dimAt : ℕ → ℕ := fun i => (shape.getD i none).getD 1
  if axis1.length = 1 ∧ cfg.virtualBatchSize = none then
    pure ⟨fd.1, axis1, fd.2, [dimAt axis1.headI.toNat]⟩
  else
    let ps := (List.range ndims).map fun (i : ℕ) => if (i : ℤ) ∈ axis1 then dimAt i else 1
    match cfg.virtualBatchSize with
    | none => pure ⟨fd.1, axis1, fd.2, ps⟩
    | some _ => pure ⟨fd.1, axis1.map (· + 1), fd.2, ps.take 1 ++ 1 :: ps.drop 1⟩

/-- Structural feasibility of the fused path, exactly as checked by
`_raise_if_fused_cannot_be_used` at construction time. -/
def fusedFeasible (cfg : BNConfig) : Prop :=
  cfg.renorm = false ∧ cfg.axis.length ≤ 1 ∧ cfg.axis.headI ∈ fusedAxisWhitelist ∧
  cfg.virtualBatchSize = none ∧ cfg.adjustment = false ∧
  fusedDtypeAllowed cfg.computeDtype = true

/-- Batch mean along the batch dimension of a rank-2 input `[B, C]`
(engine op `tf.nn.moments` with reduction axis 0; features indexed by `ℕ`). -/
def batchMean (B : ℕ) (x : Fin B → ℕ → ℚ) (c : ℕ) : ℚ :=
  (∑ b : Fin B, x b c) / B

/-- Batch variance along the batch dimension of a rank-2 input `[B, C]`. -/
def batchVariance (B : ℕ) (x : Fin B → ℕ → ℚ) (c : ℕ) : ℚ :=
  (∑ b : Fin B, (x b c - batchMean B x c) ^ 2) / B

/-- Embedding of `BatchNormalizationBase._get_training_value` with the
`training` argument resolved to a concrete boolean (`none` falls back to the
backend learning phase; with V2 behavior a non-trainable layer overrides the
value to `False`). -/
def getTrainingValue (useV2 trainable : Bool) (training : Option Bool)
    (learningPhase : Bool) : Bool :=
  let t := training.getD learningPhase
  if useV2 && !trainable then false else t

/-- Result of one generic-path call on a rank-2 input: the output tensor,
the moving statistics after the scheduled updates ran (unchanged when no
update was scheduled), and whether updates were scheduled at all. -/
structure BNCallResult (B : ℕ) where
  output : Fin B → ℕ → ℚ
  movingMean : ℕ → ℚ
  movingVariance : ℕ → ℚ
  updatesScheduled : Bool

/-- Embedding of the generic (non-fused) branch of
`BatchNormalizationBase.call` for a rank-2 input with `axis=[1]`, no virtual
batching, no adjustment and no renorm, with the `training` value resolved to
a concrete boolean.  In training mode the batch moments normalize the input
and one moving-average update per statistic is scheduled; otherwise the
moving statistics normalize the input and nothing is scheduled.  The engine
op `tf.nn.batch_normalization` is modelled with the reciprocal square root
abstracted as `rsqrt`. -/
def bnCall (useV2 trainable : Bool) (training0 : Option Bool) (learningPhase : Bool)
    (momentum epsilon : ℚ) (gamma beta movingMean movingVariance : ℕ → ℚ)
    (rsqrt : ℚ → ℚ) (inputsSize : Option ℤ)
    (B : ℕ) (x : Fin B → ℕ → ℚ) : BNCallResult B :=
  let training := getTrainingValue useV2 trainable training0 learningPhase
  if training then
    let mean := batchMean B x
    let variance := batchVariance B x
    { output := fun b c =>
        (x b c - mean c) * rsqrt (variance c + epsilon) * gamma c + beta c
      movingMean := fun c =>
        assignMovingAverage (movingMean c) (mean c) momentum inputsSize
      movingVariance := fun c =>
        assignMovingAverage (movingVariance c) (variance c) momentum inputsSize
      updatesScheduled := true }
  else
    { output := fun b c =>
        (x b c - movingMean c) * rsqrt (movingVariance c + epsilon) * gamma c + beta c
      movingMean := movingMean
      movingVariance := movingVariance
      updatesScheduled := false }

/-- Ghost-batch reshape of `call`: a rank-2 input `[V * k, C]` is reshaped
(row-major) to `[V, k, C]`, so position `(i, j)` holds batch element
`i * k + j`. -/
def vbReshape (V k : ℕ) (x : Fin (V * k) → ℕ → ℚ) (i : Fin V) (j : Fin k)
    (c : ℕ) : ℚ :=
  x ⟨i.val * k + j.val, by
    have hi := i.isLt
    have hj := j.isLt
    calc i.val * k + j.val < i.val * k + k := by omega
    _ = (i.val + 1) * k := by ring
    _ ≤ V * k := Nat.mul_le_mul_right k hi⟩ c

/-- Moments of the reshaped tensor as `call` computes them with a virtual
batch size: the reduction axes are all non-feature axes except dimension 1
(`del reduction_axes[1]`), so for the rank-3 reshaped tensor only dimension 0
is reduced; the mean at sub-batch index `j` and feature `c`. -/
def vbMean (V k : ℕ) (x : Fin (V * k) → ℕ → ℚ) (j : Fin k) (c : ℕ) : ℚ :=
  (∑ i : Fin V, vbReshape V k x i j c) / V

/-- Variance companion of `vbMean`. -/
def vbVariance (V k : ℕ) (x : Fin (V * k) → ℕ → ℚ) (j : Fin k) (c : ℕ) : ℚ :=
  (∑ i : Fin V, (vbReshape V k x i j c - vbMean V k x j c) ^ 2) / V

/-- Statistic fed to the single moving-mean update of a virtual-batched call:
`tf.reduce_mean(mean, axis=1)`, the average of the per-sub-batch means. -/
def vbNewMean (V k : ℕ) (x : Fin (V * k) → ℕ → ℚ) (c : ℕ) : ℚ :=
  (∑ j : Fin k, vbMean V k x j c) / k

/-- Statistic fed to the single moving-variance update of a virtual-batched
call: the average of the per-sub-batch variances. -/
def vbNewVariance (V k : ℕ) (x : Fin (V * k) → ℕ → ℚ) (c : ℕ) : ℚ :=
  (∑ j : Fin k, vbVariance V k x j c) / k

/-- Statistics as claim C4 describes them: with dimension 1 additionally
reduced, the moments of the reshaped tensor are taken over both dimension 0
and dimension 1 and no longer depend on the sub-batch index. -/
def vbMeanDimOneReduced (V k : ℕ) (x : Fin (V * k) → ℕ → ℚ) (c : ℕ) : ℚ :=
  (∑ i : Fin V, ∑ j : Fin k, vbReshape V k x i j c) / (V * k)

/-- Output of a virtual-batched training call at original batch position `b`:
the element is normalized with the statistics of its sub-batch `b % k` and
the shared `gamma` and `beta`, then the tensor is reshaped back to the
original shape (so the value sits again at position `b`). -/
def vbOutput (V k : ℕ) (epsilon : ℚ) (gamma beta : ℕ → ℚ) (rsqrt : ℚ → ℚ)
    (x : Fin (V * k) → ℕ → ℚ) (b : Fin (V * k)) (c : ℕ) : ℚ :=
  have hk : 0 < k := by
    rcases Nat.eq_zero_or_pos k with hk0 | hk0
    · exact absurd b.isLt (by simp [hk0])
    · exact hk0
  let i : Fin V := ⟨b.val / k, (Nat.div_lt_iff_lt_mul hk).mpr b.isLt⟩
  let j : Fin k := ⟨b.val % k, Nat.mod_lt _ hk⟩
  (vbReshape V k x i j c - vbMean V k x j c)
    * rsqrt (vbVariance V k x j c + epsilon) * gamma c + beta c

/-- Result of one virtual-batched training call. -/
structure VBCallResult (V k : ℕ) where
  output : Fin (V * k) → ℕ → ℚ
  movingMean : ℕ → ℚ
  movingVariance : ℕ → ℚ

/-- Embedding of the training-mode generic branch of
`BatchNormalizationBase.call` with a configured virtual batch size, for an
original rank-2 input `[V * k, C]` and original `axis=[1]` (shifted to `[2]`
at build): reshape, per-sub-batch moments, one moving update per statistic
with the sub-batch-averaged value, normalize, reshape back. -/
def vbCall (V k : ℕ) (momentum epsilon : ℚ)
    (gamma beta movingMean movingVariance : ℕ → ℚ) (rsqrt : ℚ → ℚ)
    (inputsSize : Option ℤ) (x : Fin (V * k) → ℕ → ℚ) : VBCallResult V k :=
  { output := vbOutput V k epsilon gamma beta rsqrt x
    movingMean := fun c =>
      assignMovingAverage (movingMean c) (vbNewMean V k x c) momentum inputsSize
    movingVariance := fun c =>
      assignMovingAverage (movingVariance c) (vbNewVariance V k x c) momentum inputsSize }

/-- All multi-indices of a list of dimension sizes (row-major enumeration). -/
def subIndices : List ℕ → List (List ℕ)
  | [] => [[]]
  | d :: ds => (List.range d).flatMap fun i => (subIndices ds).map fun t => i :: t

/-- Dimension sizes a reduction over the given axes iterates over: the
tensor shape at reduced positions, 1 elsewhere. -/
def reductionMask (shape : List ℕ) (axes : List ℕ) : List ℕ :=
  (List.range shape.length).map fun i => if i ∈ axes then shape.getD i 1 else 1

/-- Merge a kept index with a tuple of reduced coordinates. -/
def mergeIdx (len : ℕ) (axes : List ℕ) (idx t : List ℕ) : List ℕ :=
  (List.range len).map fun i => if i ∈ axes then t.getD i 0 else idx.getD i 0

/-- Elementwise mean of a tensor over the given reduction axes with kept
dimensions (engine op `tf.nn.moments`): the value at kept index `idx`. -/
def tmean (shape : List ℕ) (x : List ℕ → ℚ) (axes : List ℕ) (idx : List ℕ) : ℚ :=
  (((subIndices (reductionMask shape axes)).map
      fun t => x (mergeIdx shape.length axes idx t)).sum)
    / (subIndices (reductionMask shape axes)).length

/-- Elementwise variance companion of `tmean`. -/
def tvariance (shape : List ℕ) (x : List ℕ → ℚ) (axes : List ℕ)
    (idx : List ℕ) : ℚ :=
  (((subIndices (reductionMask shape axes)).map
      fun t => (x (mergeIdx shape.length axes idx t) - tmean shape x axes idx) ^ 2).sum)
    / (subIndices (reductionMask shape axes)).length

/-- Embedding of `BatchNormalizationBase._moments`: the raw moments from
`_calculate_mean_and_var`, overridden to zero tensors when zero-size-input
support is active and the batch dimension (dimension 0) is zero. -/
def moments (supportZeroSize : Bool) (shape : List ℕ) (x : List ℕ → ℚ)
    (axes : List ℕ) : (List ℕ → ℚ) × (List ℕ → ℚ) :=
  let mv := (tmean shape x axes, tvariance shape x axes)
  if supportZeroSize then
    (fun idx => if 0 < shape.headI then mv.1 idx else 0,
     fun idx => if 0 < shape.headI then mv.2 idx else 0)
  else mv

/-- Modelled from the spec: the adapt-based `Normalization` preprocessing
layer is not part of the provided sources (only its test file is).  Per the
spec, its axis specification is an ordered set of integer axis indices
normalized to non-negative against the input rank. -/
def resolveAxes (ndims : ℕ) (axes : List ℤ) : List ℤ :=
  axes.map fun a => if a < 0 then a + ndims else a

/-- Modelled from the spec: the reduction axes of the `Normalization`
preprocessing layer are all dimensions not kept by the axis specification. -/
def normalizationReductionAxes (ndims : ℕ) (axes : List ℤ) : List ℕ :=
  (List.range ndims).filter fun i => decide ((i : ℤ) ∉ resolveAxes ndims axes)

/-- Modelled from the spec: the `Normalization` preprocessing layer output
`(x - mean) / sqrt(variance)` with adapted statistics equal to the moments of
the adapted data over the reduction axes; the engine reciprocal square root
is abstracted as `rsqrt`. -/
def normalizationOutput (rsqrt : ℚ → ℚ) (shape : List ℕ) (x : List ℕ → ℚ)
    (axes : List ℤ) (idx : List ℕ) : ℚ :=
  let red := normalizationReductionAxes shape.length axes
  (x idx - tmean shape x red idx) * rsqrt (tvariance shape x red idx)

/-- Modelled from the spec: running-statistics tracker state of the
adapt-based `Normalization` layer (element count, mean, population
variance); the layer sources are not under the provided tree, only their
test file is. -/
structure AdaptState where
  count : ℚ
  mean : ℚ
  variance : ℚ
deriving DecidableEq

/-- Modelled from the spec: adapting a tracker on a flat data shard yields
its element count, mean, and population variance. -/
def adaptList (xs : List ℚ) : AdaptState :=
  { count := xs.length
    mean := xs.sum / xs.length
    variance := (xs.map fun v => v ^ 2).sum / xs.length - (xs.sum / xs.length) ^ 2 }

/-- Modelled from the spec: `merge_state` combines two tracker states by a
count-weighted combination of means and of second moments. -/
def mergeState (a b : AdaptState) : AdaptState :=
  let total := a.count + b.count
  let m := (a.count * a.mean + b.count * b.mean) / total
  { count := total
    mean := m
    variance :=
      (a.count * (a.variance + a.mean ^ 2) + b.count * (b.variance + b.mean ^ 2)) / total
        - m ^ 2 }

/-- C1: a single moving-average update with unknown or positive batch size
sets the variable to exactly `old - (old - value) * (1 - momentum)`, which
equals `momentum * old + (1 - momentum) * value`. -/
theorem assignMovingAverage_formula (old value momentum : ℚ) (inputsSize : Option ℤ)
    (h : inputsSize = none ∨ ∃ n : ℤ, inputsSize = some n ∧ 0 < n) :
    assignMovingAverage old value momentum inputsSize
      = old - (old - value) * (1 - momentum) ∧
    old - (old - value) * (1 - momentum)
      = momentum * old + (1 - momentum) * value := by
  constructor
  · rcases h with h | ⟨n, hn, hpos⟩
    · subst h; rfl
    · subst hn; simp [assignMovingAverage, hpos]
  · ring

/-- Witness for C1 at a concrete input (batch size 3). -/
theorem assignMovingAverage_formula_witness :
    assignMovingAverage 10 4 (1/2) (some 3) = 10 - (10 - 4) * (1 - 1/2) ∧
    (10 : ℚ) - (10 - 4) * (1 - 1/2) = (1/2) * 10 + (1 - 1/2) * 4 :=
  assignMovingAverage_formula 10 4 (1/2) (some 3) (Or.inr ⟨3, rfl, by norm_num⟩)

/-- C6: with a known batch size of zero the update delta is forced to zero,
so the variable keeps its previous value. -/
theorem assignMovingAverage_zero_batch (old value momentum : ℚ) :
    assignMovingAverage old value momentum (some 0) = old := by
  simp [assignMovingAverage]

/-- C2: the renormalization corrector computes `stddev = sqrt(variance + epsilon)`,
floors the stored stddev at `sqrt(epsilon)`, returns `r = stddev / renormStddev`
and `d = (mean - renormMean) / renormStddev` clipped to the configured bounds
(`r` to `[rmin, rmax]`, `d` symmetrically to `[-dmax, dmax]`, for whichever
bounds are configured), and returns `r = 1`, `d = 0` when not training. -/
theorem renormCorrectionAndMoments_spec (clip : RenormClipping)
    (renormMeanVar renormStddevVar mean variance epsilon : ℝ) :
    renormCorrectionAndMoments clip renormMeanVar renormStddevVar
        mean variance epsilon false = (1, 0, mean, variance) ∧
    renormCorrectionAndMoments clip renormMeanVar renormStddevVar
        mean variance epsilon true =
      (clipUpper clip.rmax (clipLower clip.rmin
          (Real.sqrt (variance + epsilon) / max renormStddevVar (Real.sqrt epsilon))),
       clipSym clip.dmax
          ((mean - renormMeanVar) / max renormStddevVar (Real.sqrt epsilon)),
       mean, variance) := by
  obtain ⟨rmin, rmax, dmax⟩ := clip
  refine ⟨rfl, ?_⟩
  cases rmin <;> cases rmax <;> cases dmax <;> rfl

theorem raiseIfFused_ok_iff (cfg : BNConfig) :
    raiseIfFusedCannotBeUsed cfg = Except.ok () ↔ fusedFeasible cfg := by
  unfold raiseIfFusedCannotBeUsed fusedFeasible
  split_ifs with h1 h2 h3 h4 h5
  · simp only [reduceCtorEq, false_iff]
    rintro ⟨hr, -⟩; exact absurd h1 (by simp [hr])
  · simp only [reduceCtorEq, false_iff]
    rintro ⟨-, hl, hm, -⟩
    rcases h2 with h2 | h2
    · omega
    · exact h2 hm
  · simp only [reduceCtorEq, false_iff]
    rintro ⟨-, -, -, hv, -⟩; exact h3 hv
  · simp only [reduceCtorEq, false_iff]
    rintro ⟨-, -, -, -, ha, -⟩; exact absurd h4 (by simp [ha])
  · refine iff_of_true rfl ⟨?_, ?_, ?_, ?_, ?_, h5⟩
    · simpa using h1
    · rcases not_or.mp h2 with ⟨hlen, -⟩; omega
    · rcases not_or.mp h2 with ⟨-, hmem⟩; simpa using hmem
    · simpa using h3
    · simpa using h4
  · simp only [reduceCtorEq, false_iff]
    rintro ⟨-, -, -, -, -, hd⟩; simp [hd] at h5

/-- C3 counterexample: the claim fails on both halves.  With `fused=True`,
axis 3 passes construction but a rank-5 input silently disables fused mode at
build instead of raising; with `fused=None`, axis -4 passes construction
silently but a rank-4 input raises a ValueError at build instead of silently
selecting the generic path. -/
theorem fusedSelector_counterexample :
    (initFused true ⟨[3], false, none, false, some DType.float32⟩ (some true)
        = Except.ok (some true)) ∧
    (build true ⟨[3], false, none, false, some DType.float32⟩ (some true)
        [some 6, some 2, some 3, some 4, some 5]
        = Except.ok ⟨false, [3], none, [4]⟩) ∧
    (initFused true ⟨[-4], false, none, false, some DType.float32⟩ none
        = Except.ok none) ∧
    (build true ⟨[-4], false, none, false, some DType.float32⟩ none
        [some 2, some 3, some 4, some 5]
        = Except.error "Unsupported axis: fused=True requires axis 1 or 3 for 4D input") :=
  ⟨rfl, rfl, rfl, rfl⟩

/-- C3 amended: with `fused=True`, construction succeeds exactly when the
structural feasibility conditions hold (renorm disabled, a single whitelisted
axis, no virtual batch size, no adjustment, supported compute dtype), and any
violation raises at construction; with `fused=None`, construction never
raises.  At build, however, a rank-5 input whose axis (for example 3) is not
a rank-5 channel position silently disables fused mode instead of raising,
while a rank-4 input whose resolved axis (for example -4, resolving to 0) is
not a rank-4 channel position raises a ValueError at build even though
`fused` was `None`. -/
theorem fusedSelector_amended :
    (∀ cfg : BNConfig,
        initFused true cfg (some true) = Except.ok (some true) ↔ fusedFeasible cfg) ∧
    (∀ cfg : BNConfig, exceptOk (initFused true cfg none) = true) ∧
    (∀ d1 d2 d3 d4 d5 : ℕ,
        build true ⟨[3], false, none, false, some DType.float32⟩ (some true)
          [some d1, some d2, some d3, some d4, some d5]
          = Except.ok ⟨false, [3], none, [d4]⟩) ∧
    (∀ d1 d2 d3 d4 : ℕ,
        build true ⟨[-4], false, none, false, some DType.float32⟩ none
          [some d1, some d2, some d3, some d4]
          = Except.error "Unsupported axis: fused=True requires axis 1 or 3 for 4D input") := by
  refine ⟨?_, ?_, ?_, ?_⟩
  · intro cfg
    rw [← raiseIfFused_ok_iff]
    unfold initFused
    cases h : raiseIfFusedCannotBeUsed cfg with
    | error e => simp [h]
    | ok u => cases u; simp [h]
  · intro cfg; rfl
  · intro d1 d2 d3 d4 d5; rfl
  · intro d1 d2 d3 d4; rfl

/-- C10: under V2 behavior, a non-trainable layer behaves as inference for
every `training` argument and every learning-phase value: the training value
is overridden to `False`, the input is normalized with the moving statistics,
and no update to the moving statistics is scheduled. -/
theorem bnCall_not_trainable_inference (training0 : Option Bool) (learningPhase : Bool)
    (momentum epsilon : ℚ) (gamma beta movingMean movingVariance : ℕ → ℚ)
    (rsqrt : ℚ → ℚ) (inputsSize : Option ℤ) (B : ℕ) (x : Fin B → ℕ → ℚ) :
    getTrainingValue true false training0 learningPhase = false ∧
    bnCall true false training0 learningPhase momentum epsilon gamma beta
        movingMean movingVariance rsqrt inputsSize B x
      = { output := fun b c =>
            (x b c - movingMean c) * rsqrt (movingVariance c + epsilon) * gamma c + beta c
          movingMean := movingMean
          movingVariance := movingVariance
          updatesScheduled := false } :=
  ⟨rfl, rfl⟩

/-- C9: a constant-valued (hence zero-variance) input normalizes, in
training mode, to exactly the beta offset: the centered numerator vanishes,
so the output is `beta` for any engine reciprocal square root. -/
theorem bnCall_zero_variance_beta (momentum epsilon : ℚ)
    (v gamma beta movingMean movingVariance : ℕ → ℚ) (rsqrt : ℚ → ℚ)
    (inputsSize : Option ℤ) (B : ℕ) (hB : 0 < B) (heps : 0 < epsilon) :
    ∀ (b : Fin B) (c : ℕ),
      (bnCall true true (some true) false momentum epsilon gamma beta movingMean
          movingVariance rsqrt inputsSize B fun _ c2 => v c2).output b c = beta c := by
  intro b c
  have hBQ : (B : ℚ) ≠ 0 := Nat.cast_ne_zero.mpr hB.ne'
  have hmean : batchMean B (fun _ c2 => v c2) c = v c := by
    rw [batchMean, Finset.sum_const, Finset.card_univ, Fintype.card_fin, nsmul_eq_mul]
    exact mul_div_cancel_left₀ _ hBQ
  show (v c - batchMean B (fun _ c2 => v c2) c)
      * rsqrt (batchVariance B (fun _ c2 => v c2) c + epsilon) * gamma c + beta c = beta c
  rw [hmean, sub_self, zero_mul, zero_mul, zero_add]

/-- Witness for C9 at `B = 2`, `epsilon = 1`, constant input 5, beta 7. -/
theorem bnCall_zero_variance_beta_witness :
    (0 : ℕ) < 2 ∧ (0 : ℚ) < 1 ∧
    (bnCall true true (some true) false (99/100) 1 (fun _ => 2) (fun _ => 7)
        (fun _ => 0) (fun _ => 1) id none 2 fun _ _ => 5).output 0 0 = 7 :=
  ⟨by norm_num, by norm_num,
    bnCall_zero_variance_beta (99/100) 1 (fun _ => 5) (fun _ => 2) (fun _ => 7)
      (fun _ => 0) (fun _ => 1) id none 2 (by norm_num) (by norm_num) 0 0⟩

theorem vbReshape_roundtrip (V k : ℕ) (x : Fin (V * k) → ℕ → ℚ) (b : Fin (V * k))
    (h1 : b.val / k < V) (h2 : b.val % k < k) (c : ℕ) :
    vbReshape V k x ⟨b.val / k, h1⟩ ⟨b.val % k, h2⟩ c = x b c := by
  have hval : b.val / k * k + b.val % k = b.val := by
    simpa [Nat.mul_comm] using Nat.div_add_mod b.val k
  have hb : (⟨b.val / k * k + b.val % k, by rw [hval]; exact b.isLt⟩ : Fin (V * k)) = b :=
    Fin.ext hval
  unfold vbReshape
  exact congrFun (congrArg x hb) c

/-- C4 counterexample: with virtual batch size 1 on a batch of 2 (so two
sub-batches of one element each), the per-position means the code computes
(reducing only dimension 0) differ across dimension 1, and differ from the
mean obtained by additionally reducing dimension 1 as the claim states. -/
theorem ghostBatch_counterexample :
    vbMean 1 2 (fun b _ => if b.val = 0 then 1 else 3) 0 0 = 1 ∧
    vbMean 1 2 (fun b _ => if b.val = 0 then 1 else 3) 1 0 = 3 ∧
    vbMeanDimOneReduced 1 2 (fun b _ => if b.val = 0 then 1 else 3) 0 = 2 ∧
    vbMean 1 2 (fun b _ => if b.val = 0 then 1 else 3) 0 0
      ≠ vbMeanDimOneReduced 1 2 (fun b _ => if b.val = 0 then 1 else 3) 0 := by
  norm_num [vbMean, vbMeanDimOneReduced, vbReshape, Fin.sum_univ_succ]

/-- C4 amended: the virtual-batched call reshapes `[V * k, C]` to
`[V, k, C]` but keeps dimension 1 (the sub-batch index) out of the reduction
axes — dimension 0, of size `V`, is reduced instead — so each of the `k`
sub-batches gets independent statistics while sharing `gamma`, `beta` and the
moving-statistic variables; exactly one moving update per statistic is
performed, whose value is the mean over dimension 1 of the per-sub-batch
statistics; and the output is reshaped back so position `b` is normalized
with the statistics of its own sub-batch `b % k`. -/
theorem vbCall_ghost_batch (V k : ℕ) (momentum epsilon : ℚ)
    (gamma beta movingMean movingVariance : ℕ → ℚ) (rsqrt : ℚ → ℚ)
    (inputsSize : Option ℤ) (x : Fin (V * k) → ℕ → ℚ) :
    (∀ (b : Fin (V * k)) (c : ℕ), ∀ hjk : b.val % k < k,
        (vbCall V k momentum epsilon gamma beta movingMean movingVariance rsqrt
            inputsSize x).output b c
          = (x b c - vbMean V k x ⟨b.val % k, hjk⟩ c)
              * rsqrt (vbVariance V k x ⟨b.val % k, hjk⟩ c + epsilon)
              * gamma c + beta c) ∧
    (∀ c, (vbCall V k momentum epsilon gamma beta movingMean movingVariance rsqrt
            inputsSize x).movingMean c
        = assignMovingAverage (movingMean c)
            ((∑ j : Fin k, vbMean V k x j c) / k) momentum inputsSize) ∧
    (∀ c, (vbCall V k momentum epsilon gamma beta movingMean movingVariance rsqrt
            inputsSize x).movingVariance c
        = assignMovingAverage (movingVariance c)
            ((∑ j : Fin k, vbVariance V k x j c) / k) momentum inputsSize) := by
  refine ⟨?_, fun c => rfl, fun c => rfl⟩
  intro b c hjk
  have hk : 0 < k := Nat.lt_of_le_of_lt (Nat.zero_le _) hjk
  have h1 : b.val / k < V := (Nat.div_lt_iff_lt_mul hk).mpr b.isLt
  show (vbReshape V k x ⟨b.val / k, h1⟩ ⟨b.val % k, hjk⟩ c
        - vbMean V k x ⟨b.val % k, hjk⟩ c)
      * rsqrt (vbVariance V k x ⟨b.val % k, hjk⟩ c + epsilon) * gamma c + beta c
      = (x b c - vbMean V k x ⟨b.val % k, hjk⟩ c)
          * rsqrt (vbVariance V k x ⟨b.val % k, hjk⟩ c + epsilon) * gamma c + beta c
  rw [vbReshape_roundtrip V k x b h1 hjk c]

/-- Witness for the amended C4 at `V = 1`, `k = 2`, input `[1, 3]`. -/
theorem vbCall_ghost_batch_witness :
    (0 : Fin (1 * 2)).val % 2 < 2 ∧
    (vbCall 1 2 (99/100) 1 (fun _ => 1) (fun _ => 0) (fun _ => 0) (fun _ => 1)
        id none fun b _ => if b.val = 0 then (1 : ℚ) else 3).output 0 0
      = ((1 : ℚ) - vbMean 1 2 (fun b _ => if b.val = 0 then (1 : ℚ) else 3) ⟨0, by norm_num⟩ 0)
          * id (vbVariance 1 2 (fun b _ => if b.val = 0 then (1 : ℚ) else 3) ⟨0, by norm_num⟩ 0 + 1)
          * 1 + 0 :=
  ⟨by norm_num,
    (vbCall_ghost_batch 1 2 (99/100) 1 (fun _ => 1) (fun _ => 0) (fun _ => 0)
        (fun _ => 1) id none fun b _ => if b.val = 0 then (1 : ℚ) else 3).1
      0 0 (by norm_num)⟩

/-- C5: with zero-size-input support active and a zero batch dimension
(dimension 0), `_moments` returns all-zero mean and all-zero variance, for
every reduction-axis set. -/
theorem moments_zero_batch (rest : List ℕ) (x : List ℕ → ℚ) (axes : List ℕ) :
    (∀ idx, (moments true (0 :: rest) x axes).1 idx = 0) ∧
    (∀ idx, (moments true (0 :: rest) x axes).2 idx = 0) :=
  ⟨fun _ => rfl, fun _ => rfl⟩

/-- C8: the adapt-based normalization output is invariant under any
respelling of the axis specification that resolves to the same set of kept
axes (permutations and equivalent negative-index spellings included). -/
theorem normalizationOutput_axis_perm (rsqrt : ℚ → ℚ) (shape : List ℕ)
    (x : List ℕ → ℚ) (axes1 axes2 : List ℤ)
    (h : ∀ i : ℤ, i ∈ resolveAxes shape.length axes1 ↔ i ∈ resolveAxes shape.length axes2) :
    ∀ idx, normalizationOutput rsqrt shape x axes1 idx
        = normalizationOutput rsqrt shape x axes2 idx := by
  intro idx
  have hred : normalizationReductionAxes shape.length axes1
      = normalizationReductionAxes shape.length axes2 := by
    unfold normalizationReductionAxes
    refine List.filter_congr ?_
    intro i _
    exact decide_eq_decide.mpr (not_congr (h i))
  unfold normalizationOutput
  rw [hred]

/-- Witness for C8: axes `(1, 2)` versus `(2, 1)` on a rank-3 tensor. -/
theorem normalizationOutput_axis_perm_witness :
    (∀ i : ℤ, i ∈ resolveAxes 3 [1, 2] ↔ i ∈ resolveAxes 3 [2, 1]) ∧
    normalizationOutput id [2, 2, 3] (fun _ => 0) [1, 2] [0, 0, 0]
      = normalizationOutput id [2, 2, 3] (fun _ => 0) [2, 1] [0, 0, 0] := by
  have hperm : ∀ i : ℤ, i ∈ resolveAxes 3 [1, 2] ↔ i ∈ resolveAxes 3 [2, 1] := by
    intro i
    show i ∈ [(1 : ℤ), 2] ↔ i ∈ [(2 : ℤ), 1]
    simp [List.mem_cons, or_comm]
  exact ⟨hperm,
    normalizationOutput_axis_perm id [2, 2, 3] (fun _ => 0) [1, 2] [2, 1] hperm [0, 0, 0]⟩

/-- C7: merging two independently-adapted trackers by the count-weighted
combination equals adapting on the concatenated data, exactly over ℚ; in
particular shards `[1, 2, 3]` and `[4, 5]` merge to mean 3 and population
variance 2. -/
theorem mergeState_adapt_concat :
    (∀ xs ys : List ℚ, mergeState (adaptList xs) (adaptList ys) = adaptList (xs ++ ys)) ∧
    (∀ (first : List ℚ) (shards : List (List ℚ)),
        (shards.map adaptList).foldl mergeState (adaptList first)
          = adaptList (first ++ shards.flatten)) ∧
    (mergeState (adaptList [1, 2, 3]) (adaptList [4, 5])).mean = 3 ∧
    (mergeState (adaptList [1, 2, 3]) (adaptList [4, 5])).variance = 2 := by
  have key : ∀ (xs : List ℚ) (s : ℚ), (xs = [] → s = 0) →
      (xs.length : ℚ) * (s / xs.length) = s := by
    intro xs s hs
    rcases eq_or_ne xs [] with h | h
    · subst h; simp [hs rfl]
    · have hne : xs.length ≠ 0 := fun h0 => h (List.length_eq_zero.mp h0)
      have hl : (xs.length : ℚ) ≠ 0 := Nat.cast_ne_zero.mpr hne
      field_simp
  have hgen : ∀ xs ys : List ℚ,
      mergeState (adaptList xs) (adaptList ys) = adaptList (xs ++ ys) := by
    intro xs ys
    have h1s := key xs xs.sum (by intro h; subst h; rfl)
    have h2s := key ys ys.sum (by intro h; subst h; rfl)
    have h1q := key xs (xs.map fun v => v ^ 2).sum (by intro h; subst h; rfl)
    have h2q := key ys (ys.map fun v => v ^ 2).sum (by intro h; subst h; rfl)
    simp only [mergeState, adaptList]
    congr 1
    · push_cast [List.length_append]; ring
    · rw [h1s, h2s, List.sum_append, List.length_append]; push_cast; ring
    · have e1 : (xs.map fun v => v ^ 2).sum / xs.length - (xs.sum / xs.length) ^ 2
          + (xs.sum / xs.length) ^ 2 = (xs.map fun v => v ^ 2).sum / xs.length := by
        ring
      have e2 : (ys.map fun v => v ^ 2).sum / ys.length - (ys.sum / ys.length) ^ 2
          + (ys.sum / ys.length) ^ 2 = (ys.map fun v => v ^ 2).sum / ys.length := by
        ring
      rw [e1, e2, h1q, h2q, h1s, h2s, List.map_append, List.sum_append, List.sum_append,
        List.length_append]
      push_cast; ring
  have hfold : ∀ (shards : List (List ℚ)) (first : List ℚ),
      (shards.map adaptList).foldl mergeState (adaptList first)
        = adaptList (first ++ shards.flatten) := by
    intro shards
    induction shards with
    | nil => intro first; simp
    | cons s ss ih =>
      intro first
      rw [List.map_cons, List.foldl_cons, hgen, ih (first ++ s)]
      simp [List.append_assoc]
  refine ⟨hgen, fun first shards => hfold shards first, ?_, ?_⟩
  · rw [hgen]
    norm_num [adaptList, List.sum_cons, List.sum_nil]
  · rw [hgen]
    norm_num [adaptList, List.sum_cons, List.sum_nil]

end KerasNorm
